import Mathlib

/-!
# Accelerometer widget (`src/UI/Widgets/Accelerometer.cpp`)

A shallow embedding of `Widgets::Accelerometer`: its constructor and the
`updateData` slot.  The widget's mutable state is an explicit record, the
dashboard and theme singletons are explicit arguments, and the `double`
arithmetic and the Qt text conversions the slot calls are the operations of
a class `QReal`, so that every structural theorem holds for each carrier of
`double`.  `Dbl` further down is an exact, executable binary64 carrier.
-/

namespace Widgets

/-- The `double` operations `updateData` uses: `+`, `/`, decimal literals
(`9.18`), the conversion of an `int` literal, `qPow`, `qSqrt`,
`QString::toDouble` and `QString::number(d, 'f', precision)`. -/
class QReal (D : Type) extends Add D, Div D, OfScientific D where
  /-- Conversion of an `int` to `double`, as in `double x = 0`. -/
  ofInt : Int → D
  qPow : D → D → D
  qSqrt : D → D
  /-- The reading of a text value: `QString::toDouble`. -/
  toDouble : String → D
  /-- Fixed-point text: `QString::number (d, 'f', precision)`. -/
  number : D → Int → String

/-- A `JSON::Dataset` as the widget reads it: its `widget()` tag and its
`value()` text. -/
structure Dataset where
  widget : String
  value : String
  deriving DecidableEq, Repr

/-- A `JSON::Group`: an ordered collection of datasets. -/
structure Group where
  datasets : List Dataset
  deriving DecidableEq, Repr

/-- Number of datasets: `datasetCount()`. -/
def Group.datasetCount (g : Group) : Int := g.datasets.length

/-- Dataset at a position: `getDataset(i)`, a null pointer (`none`) when the
position is out of range. -/
def Group.getDataset (g : Group) (i : Nat) : Option Dataset := g.datasets.get? i

/-- What the widget reads from `UI::Dashboard::instance()`. -/
structure Dashboard where
  accelerometerCount : Int
  getAccelerometer : Int → Option Group
  precision : Int

/-- What the constructor reads from `Misc::ThemeManager::instance()`. -/
structure ThemeManager where
  widgetColors : List String
  widgetControlBackground : String

/-- State of an accelerometer widget.  `isEnabled` is the `QWidget` flag the
slot tests, `gaugeValue` is the value last handed
to `m_gauge.setValue`, `value` the display string last handed to `setValue`,
`timers` the delays of the `QTimer::singleShot` requests issued so far (oldest
first), `needle` the needle and knob colours when the constructor configured
them, and `connected` whether `updateData` is subscribed to the dashboard's
`updated()` signal. -/
structure Accelerometer (D : Type) where
  m_index : Int
  isEnabled : Bool
  gaugeValue : D
  value : String
  timers : List Nat
  needle : Option (String × String)
  connected : Bool

/-- Position at which the constructor reads the needle colour (lines 48-51):
`index` when `count > index`, otherwise `count % index`; `none` when that
remainder divides by zero. -/
def needleColorIndex (count index : Int) : Option Int :=
  if count > index then some index
  else if index = 0 then none
  else some (Int.tmod count index)

/-- Element of a `QVector` at a position: `colors.at(i)`, `none` when the
position is out of range. -/
def colorsAt (colors : List String) (i : Int) : Option String :=
  if 0 ≤ i then colors.get? i.toNat else none

/-- A widget as allocated before the constructor body runs: enabled (the
`QWidget` default), gauge at `0`, empty display string, no timer, no needle,
not connected. -/
def Accelerometer.fresh {D : Type} [QReal D] (index : Int) : Accelerometer D :=
  { m_index := index, isEnabled := true, gaugeValue := QReal.ofInt 0, value := "",
    timers := [], needle := none, connected := false }

/-- The constructor `Accelerometer(index)`.  With an invalid index it returns
before anything is configured or connected.  `none` stands for a fault while
reading the needle colour (a division by zero or an out-of-range
`colors.at`). -/
def Accelerometer.init {D : Type} [QReal D] (index : Int)
    (dash : Dashboard) (theme : ThemeManager) : Option (Accelerometer D) :=
  let w : Accelerometer D := Accelerometer.fresh index
  if index < 0 ∨ index ≥ dash.accelerometerCount then some w
  else
    let colors := theme.widgetColors
    let knobColor := theme.widgetControlBackground
    match needleColorIndex colors.length index with
    | none => none
    | some pos =>
      match colorsAt colors pos with
      | none => none
      | some needleColor =>
        some { w with needle := some (needleColor, knobColor), connected := true }

/-- One pass of the loop body (lines 101-107) on a dataset. -/
def scanDataset {D : Type} [QReal D] (xyz : D × D × D) (dataset : Dataset) : D × D × D :=
  let x := if dataset.widget = "x" then QReal.toDouble dataset.value else xyz.1
  let y := if dataset.widget = "y" then QReal.toDouble dataset.value else xyz.2.1
  let z := if dataset.widget = "z" then QReal.toDouble dataset.value else xyz.2.2
  (x, y, z)

/-- The loop `for (int i = 0; i < 3; ++i)` (lines 94-108): the three axes
after scanning positions 0, 1, 2, all starting at `0`.  After the
`datasetCount() != 3` guard every `getDataset(i)` is present. -/
def readAxes {D : Type} [QReal D] (accelerometer : Group) : D × D × D :=
  (List.range 3).foldl
    (fun xyz i =>
      match accelerometer.getDataset i with
      | some dataset => scanDataset xyz dataset
      | none => xyz)
    (QReal.ofInt 0, QReal.ofInt 0, QReal.ofInt 0)

/-- Lines 110-114: each axis divided by `9.18`, then the Euclidean norm. -/
def magnitude {D : Type} [QReal D] (xyz : D × D × D) : D :=
  let x := xyz.1 / 9.18
  let y := xyz.2.1 / 9.18
  let z := xyz.2.2 / 9.18
  QReal.qSqrt (QReal.qPow x (QReal.ofInt 2) + QReal.qPow y (QReal.ofInt 2)
    + QReal.qPow z (QReal.ofInt 2))

/-- The slot `updateData()`. -/
def updateData {D : Type} [QReal D] (w : Accelerometer D) (dash : Dashboard) :
    Accelerometer D :=
  if !w.isEnabled then w
  else
    match dash.getAccelerometer w.m_index with
    | none => w
    | some accelerometer =>
      if accelerometer.datasetCount ≠ 3 then w
      else
        let G := magnitude (readAxes accelerometer : D × D × D)
        { w with
          gaugeValue := G
          value := QReal.number G dash.precision ++ " G"
          timers := w.timers ++ [20] }

/-- Delivery of the dashboard's `updated()` signal: the slot runs only when
the constructor connected it (line 71). -/
def onDashboardUpdated {D : Type} [QReal D] (w : Accelerometer D) (dash : Dashboard) :
    Accelerometer D :=
  if w.connected then updateData w dash else w

/-- Whether `updateData` gets past its guards: the widget is enabled, the
group is present and it has exactly three datasets. -/
def updates {D : Type} (w : Accelerometer D) (dash : Dashboard) : Bool :=
  w.isEnabled &&
    match dash.getAccelerometer w.m_index with
    | some accelerometer => accelerometer.datasetCount == 3
    | none => false

/-- Reading of the last dataset, in scan order, whose tag is exactly `a`;
`0` when no dataset carries the tag. -/
def lastTagged {D : Type} [QReal D] (a : String) (datasets : List Dataset) : D :=
  match (datasets.filter (fun d => d.widget = a)).getLast? with
  | some d => QReal.toDouble d.value
  | none => QReal.ofInt 0

/-! ## An exact binary64 carrier

`Dbl` represents IEEE 754 binary64 values exactly, with integer arithmetic
only, so that the numeric examples can be evaluated.  Every operation rounds
the exact result to nearest, ties to even. -/

/-- A binary64 value: `fin neg m e` is `(-1)^neg * m * 2^e`, `inf neg` an
infinity, `nan` a NaN. -/
inductive Dbl where
  | fin (neg : Bool) (m : Nat) (e : Int)
  | inf (neg : Bool)
  | nan
  deriving DecidableEq, Repr

namespace Dbl

/-- Helper of `log2`, with a bound on the number of halvings. -/
def log2Aux : Nat → Nat → Nat
  | 0, _ => 0
  | fuel + 1, n => if n < 2 then 0 else log2Aux fuel (n / 2) + 1

/-- Position of the highest set bit of `n` (`0` for `n = 0`). -/
def log2 (n : Nat) : Nat := log2Aux n n

/-- The binary64 value nearest to `(-1)^neg * num / den` (`den > 0`), ties to
even: a significand of at most 53 bits, exponent at least `-1074`
(subnormals), an infinity from `2^1024 - 2^970` on. -/
def round (neg : Bool) (num den : Nat) : Dbl :=
  if num = 0 then fin neg 0 0
  else
    let k0 : Int := (log2 num : Int) - (log2 den : Int)
    let below : Bool :=
      if 0 ≤ k0 then decide (num < den * 2 ^ k0.toNat)
      else decide (num * 2 ^ (-k0).toNat < den)
    let k : Int := if below then k0 - 1 else k0
    let e : Int := max (k - 52) (-1074)
    let a : Nat := if 0 ≤ e then num else num * 2 ^ (-e).toNat
    let b : Nat := if 0 ≤ e then den * 2 ^ e.toNat else den
    let q := a / b
    let r := a % b
    let m := if b < 2 * r ∨ (2 * r = b ∧ q % 2 = 1) then q + 1 else q
    if 971 < e ∨ (e = 971 ∧ 2 ^ 53 ≤ m) then inf neg else fin neg m e

/-- The binary64 value nearest to `(-1)^neg * (num / den) * 2^sh`. -/
def ofRat (neg : Bool) (num den : Nat) (sh : Int) : Dbl :=
  if 0 ≤ sh then round neg (num * 2 ^ sh.toNat) den
  else round neg num (den * 2 ^ (-sh).toNat)

/-- Division `x / y`. -/
def div : Dbl → Dbl → Dbl
  | nan, _ => nan
  | _, nan => nan
  | inf _, inf _ => nan
  | inf s, fin t _ _ => inf (xor s t)
  | fin s _ _, inf t => fin (xor s t) 0 0
  | fin s m e, fin t n f =>
    if n = 0 then (if m = 0 then nan else inf (xor s t))
    else ofRat (xor s t) m n (e - f)

/-- Addition `x + y`. -/
def add : Dbl → Dbl → Dbl
  | nan, _ => nan
  | _, nan => nan
  | inf s, inf t => if s = t then inf s else nan
  | inf s, fin _ _ _ => inf s
  | fin _ _ _, inf t => inf t
  | fin s m e, fin t n f =>
    let g : Int := min e f
    let a : Int := (if s then -1 else 1) * (m : Int) * 2 ^ (e - g).toNat
    let b : Int := (if t then -1 else 1) * (n : Int) * 2 ^ (f - g).toNat
    let c : Int := a + b
    if c = 0 then fin (s && t) 0 0
    else ofRat (decide (c < 0)) c.natAbs 1 g

/-- Whether a value is exactly `2`. -/
def isTwo : Dbl → Bool
  | fin false m e =>
    if 0 ≤ e then decide (m * 2 ^ e.toNat = 2) else decide (m = 2 * 2 ^ (-e).toNat)
  | _ => false

/-- The power `pow (x, y)` for the exponent `2`, the only one the widget
passes: the square of `x`, rounded (`pow (1, 2) = 1` and `pow (0, 2) = 0`
exactly).  Other exponents are outside this carrier and give `nan`. -/
def pow (x y : Dbl) : Dbl :=
  if isTwo y then
    match x with
    | nan => nan
    | inf _ => inf false
    | fin _ m e => ofRat false (m * m) 1 (e + e)
  else nan

/-- Helper of `isqrt`: sets the bits of the root from bit `i - 1` down. -/
def isqrtAux (n : Nat) : Nat → Nat → Nat
  | 0, r => r
  | i + 1, r =>
    if (r + 2 ^ i) * (r + 2 ^ i) ≤ n then isqrtAux n i (r + 2 ^ i) else isqrtAux n i r

/-- Integer square root: the largest `r` with `r * r ≤ n`. -/
def isqrt (n : Nat) : Nat := isqrtAux n (log2 n / 2 + 1) 0

/-- Square root.  The argument is scaled by an even power of two to an integer
of at least 109 bits; when its integer root `r` is inexact, `r + 1/2` rounds
the same way as the true root. -/
def sqrt : Dbl → Dbl
  | nan => nan
  | inf s => if s then nan else inf false
  | fin s m e =>
    if m = 0 then fin s 0 0
    else if s then nan
    else
      let t : Int := if e % 2 = 0 then 108 else 109
      let n : Nat := m * 2 ^ t.toNat
      let r := isqrt n
      let sh : Int := (e - t) / 2
      if r * r = n then ofRat false r 1 sh else ofRat false (2 * r + 1) 2 sh

/-- Value of a decimal digit. -/
def digitValue (c : Char) : Option Nat :=
  if '0' ≤ c ∧ c ≤ '9' then some (c.toNat - 48) else none

/-- Reads a run of decimal digits onto `acc`: the value, the number of digits
read and the rest of the text. -/
def readDigits : List Char → Nat → Nat → Nat × Nat × List Char
  | [], acc, cnt => (acc, cnt, [])
  | c :: cs, acc, cnt =>
    match digitValue c with
    | some d => readDigits cs (10 * acc + d) (cnt + 1)
    | none => (acc, cnt, c :: cs)

/-- Reads an optional sign. -/
def readSign : List Char → Bool × List Char
  | '-' :: cs => (true, cs)
  | '+' :: cs => (false, cs)
  | cs => (false, cs)

/-- Reads what follows the significand: nothing, or `e` with a signed
integer. -/
def readExponent : List Char → Option Int
  | [] => some 0
  | c :: cs =>
    if c = 'e' ∨ c = 'E' then
      let (s, ds) := readSign cs
      match readDigits ds 0 0 with
      | (v, _ + 1, []) => some (if s then -(v : Int) else v)
      | _ => none
    else none

/-- Value of a decimal numeral `[sign] digits [. digits] [e [sign] digits]`,
rounded; `0` for any other text. -/
def parse (cs : List Char) : Dbl :=
  let (s, r0) := readSign cs
  let (ip, ic, r1) := readDigits r0 0 0
  let (mant, fc, r2) :=
    match r1 with
    | '.' :: r => readDigits r ip 0
    | r => (ip, 0, r)
  if ic + fc = 0 then fin false 0 0
  else
    match readExponent r2 with
    | none => fin false 0 0
    | some ex =>
      let p : Int := ex - fc
      if 0 ≤ p then round s (mant * 10 ^ p.toNat) 1 else round s mant (10 ^ (-p).toNat)

/-- Reading of a text as a decimal numeral, surrounding blanks ignored; `0`
when the text is no numeral. -/
def toDouble (s : String) : Dbl :=
  parse ((s.toList.dropWhile Char.isWhitespace).reverse.dropWhile Char.isWhitespace).reverse

/-- The character of a decimal digit. -/
def digitChar (d : Nat) : Char :=
  match d with
  | 0 => '0' | 1 => '1' | 2 => '2' | 3 => '3' | 4 => '4'
  | 5 => '5' | 6 => '6' | 7 => '7' | 8 => '8' | _ => '9'

/-- Decimal digits of `n`, most significant first; `fuel` bounds their number
from above. -/
def decimalDigits : Nat → Nat → List Char
  | 0, n => [digitChar (n % 10)]
  | fuel + 1, n =>
    if n < 10 then [digitChar n] else decimalDigits fuel (n / 10) ++ [digitChar (n % 10)]

/-- The integer `n` written with a decimal point before its last `p` digits:
the text of `n / 10^p` with `p` decimals. -/
def fixed (n p : Nat) : List Char :=
  let ds := decimalDigits (log2 n) n
  let ds := List.replicate (p + 1 - ds.length) '0' ++ ds
  if p = 0 then ds else ds.take (ds.length - p) ++ '.' :: ds.drop (ds.length - p)

/-- Fixed-point text of a value with `precision` decimals (six when
`precision` is negative), the last digit rounded half away from zero;
`inf`, `-inf` and `nan` for the special values. -/
def number (d : Dbl) (precision : Int) : String :=
  let p : Nat := if precision < 0 then 6 else precision.toNat
  match d with
  | nan => "nan"
  | inf s => if s then "-inf" else "inf"
  | fin s m e =>
    let a : Nat := if 0 ≤ e then m * 2 ^ e.toNat * 10 ^ p else m * 10 ^ p
    let b : Nat := if 0 ≤ e then 1 else 2 ^ (-e).toNat
    let n := (2 * a + b) / (2 * b)
    String.mk ((if s then ['-'] else []) ++ fixed n p)

/-- Value of a decimal literal `mantissa * 10^(±decimalExponent)`. -/
def ofScientific (mantissa : Nat) (exponentSign : Bool) (decimalExponent : Nat) : Dbl :=
  if exponentSign then round false mantissa (10 ^ decimalExponent)
  else round false (mantissa * 10 ^ decimalExponent) 1

/-- Conversion of an integer. -/
def ofInt (i : Int) : Dbl := round (decide (i < 0)) i.natAbs 1

/-- Whether a value carries no minus sign. -/
def signless : Dbl → Bool
  | fin s _ _ => !s
  | inf s => !s
  | nan => true

/-- The number a run of decimal digits denotes, most significant digit first. -/
def decimalValue (cs : List Char) : Nat :=
  cs.foldl (fun acc c => 10 * acc + (c.toNat - 48)) 0

end Dbl

instance : QReal Dbl where
  add := Dbl.add
  div := Dbl.div
  ofScientific := Dbl.ofScientific
  ofInt := Dbl.ofInt
  qPow := Dbl.pow
  qSqrt := Dbl.sqrt
  toDouble := Dbl.toDouble
  number := Dbl.number

/-- A dashboard with `count` accelerometers whose group at index `0` is
`g`, and the given display precision. -/
def dashboardWith (count : Int) (g : Group) (precision : Int) : Dashboard :=
  { accelerometerCount := count
    getAccelerometer := fun i => if i = 0 then some g else none
    precision := precision }

/-- An enabled widget of index `0` that already shows "7.00 G". -/
def showingSeven : Accelerometer Dbl :=
  { m_index := 0, isEnabled := true, gaugeValue := Dbl.ofInt 7, value := "7.00 G",
    timers := [20], needle := some ("#f44336", "#000000"), connected := true }

/-- A dashboard without any accelerometer. -/
def emptyDashboard : Dashboard :=
  { accelerometerCount := 0, getAccelerometer := fun _ => none, precision := 2 }

end Widgets

namespace Widgets

/-! ## Helper lemmas -/

/-- A group that passes the `datasetCount() != 3` guard holds three datasets. -/
theorem datasets_of_count {g : Group} (h : g.datasetCount = 3) :
    ∃ a b c, g.datasets = [a, b, c] := by
  unfold Group.datasetCount at h
  have h3 : g.datasets.length = 3 := by exact_mod_cast h
  match hg : g.datasets, h3 with
  | [a, b, c], _ => exact ⟨a, b, c, rfl⟩

/-- A group of three datasets has dataset count three. -/
theorem count_of_datasets {g : Group} {a b c : Dataset} (h : g.datasets = [a, b, c]) :
    g.datasetCount = 3 := by
  simp [Group.datasetCount, h]

/-- The loop on a group of three datasets, unrolled. -/
theorem readAxes_three {D : Type} [QReal D] {g : Group} {a b c : Dataset}
    (h : g.datasets = [a, b, c]) :
    (readAxes g : D × D × D)
      = scanDataset (scanDataset (scanDataset
          (QReal.ofInt 0, QReal.ofInt 0, QReal.ofInt 0) a) b) c := by
  simp [readAxes, Group.getDataset, h, List.range, List.range.loop]

/-- The state after an update that gets past the guards. -/
theorem updateData_of_updates {D : Type} [QReal D] {w : Accelerometer D} {dash : Dashboard}
    (h : updates w dash = true) :
    ∃ g, dash.getAccelerometer w.m_index = some g ∧ g.datasetCount = 3 ∧ w.isEnabled = true ∧
      updateData w dash =
        { w with
          gaugeValue := magnitude (readAxes g : D × D × D)
          value := QReal.number (magnitude (readAxes g : D × D × D)) dash.precision ++ " G"
          timers := w.timers ++ [20] } := by
  unfold updates at h
  cases hg : dash.getAccelerometer w.m_index with
  | none => simp [hg] at h
  | some g =>
    simp [hg] at h
    refine ⟨g, rfl, h.2, h.1, ?_⟩
    simp [updateData, hg, h.1, h.2]

/-- An update stopped by one of the guards leaves the state as it was. -/
theorem updateData_of_not_updates {D : Type} [QReal D] {w : Accelerometer D} {dash : Dashboard}
    (h : updates w dash = false) : updateData w dash = w := by
  unfold updates at h
  unfold updateData
  cases hen : w.isEnabled with
  | false => simp
  | true =>
    cases hg : dash.getAccelerometer w.m_index with
    | none => simp
    | some g =>
      simp [hen, hg] at h
      simp [h]

/-- The two orderings of a pair. -/
theorem perm_two {α : Type} {q r b c : α} (h : [q, r].Perm [b, c]) :
    (q = b ∧ r = c) ∨ (q = c ∧ r = b) := by
  have hq : q ∈ [b, c] := h.subset (by simp)
  simp only [List.mem_cons, List.mem_singleton, List.not_mem_nil, or_false] at hq
  rcases hq with rfl | rfl
  · left
    have := (List.perm_cons q).1 h
    simpa using this
  · right
    have h2 : [q, r].Perm [q, b] := h.trans (List.Perm.swap q b [])
    have := (List.perm_cons q).1 h2
    simpa using this

/-- The six orderings of a triple. -/
theorem perm_three {α : Type} {l : List α} {a b c : α} (h : l.Perm [a, b, c]) :
    l = [a, b, c] ∨ l = [a, c, b] ∨ l = [b, a, c] ∨ l = [b, c, a] ∨
      l = [c, a, b] ∨ l = [c, b, a] := by
  have hl : l.length = 3 := by simpa using h.length_eq
  match l, hl, h with
  | [p, q, r], _, h =>
    have hp : p ∈ [a, b, c] := h.subset (by simp)
    simp only [List.mem_cons, List.mem_singleton, List.not_mem_nil, or_false] at hp
    rcases hp with rfl | rfl | rfl
    · rcases perm_two ((List.perm_cons p).1 h) with ⟨rfl, rfl⟩ | ⟨rfl, rfl⟩ <;> simp
    · have h2 : [p, q, r].Perm [p, a, c] := h.trans (List.Perm.swap p a [c])
      rcases perm_two ((List.perm_cons p).1 h2) with ⟨rfl, rfl⟩ | ⟨rfl, rfl⟩ <;> simp
    · have h2 : [p, q, r].Perm [p, a, b] :=
        h.trans ((List.Perm.cons a (List.Perm.swap p b [])).trans (List.Perm.swap p a [b]))
      rcases perm_two ((List.perm_cons p).1 h2) with ⟨rfl, rfl⟩ | ⟨rfl, rfl⟩ <;> simp

/-- With the tags "x", "y", "z" once each, in any order, the loop reads the
three readings into their axes. -/
theorem readAxes_xyz {D : Type} [QReal D] {g : Group} {vx vy vz : String}
    (h : g.datasets.Perm [⟨"x", vx⟩, ⟨"y", vy⟩, ⟨"z", vz⟩]) :
    (readAxes g : D × D × D) = (QReal.toDouble vx, QReal.toDouble vy, QReal.toDouble vz) := by
  rcases perm_three h with h | h | h | h | h | h <;>
    simp [readAxes_three h, scanDataset]

/-- The loop reads, for each axis, the last dataset carrying its tag. -/
theorem readAxes_lastTagged {D : Type} [QReal D] {g : Group} (h : g.datasetCount = 3) :
    (readAxes g : D × D × D)
      = (lastTagged "x" g.datasets, lastTagged "y" g.datasets, lastTagged "z" g.datasets) := by
  obtain ⟨a, b, c, habc⟩ := datasets_of_count h
  rw [readAxes_three habc, habc]
  simp only [scanDataset, lastTagged, List.filter]
  by_cases ax : a.widget = "x" <;> by_cases ay : a.widget = "y" <;>
    by_cases az : a.widget = "z" <;> by_cases bx : b.widget = "x" <;>
    by_cases bY : b.widget = "y" <;> by_cases bz : b.widget = "z" <;>
    by_cases cx : c.widget = "x" <;> by_cases cy : c.widget = "y" <;>
    by_cases cz : c.widget = "z" <;> simp [ax, ay, az, bx, bY, bz, cx, cy, cz]

end Widgets

namespace Widgets

/-! ## The update slot -/

/-- C1: for an enabled widget whose group is present and holds exactly three
datasets tagged "x", "y" and "z", one each and in any order, with readings
`x`, `y`, `z`, `updateData` hands the gauge
`qSqrt (qPow (x / 9.18, 2) + qPow (y / 9.18, 2) + qPow (z / 9.18, 2))`; the
divisor is the literal `9.18`. -/
theorem updateData_gauge_is_magnitude {D : Type} [QReal D] (w : Accelerometer D)
    (dash : Dashboard) (g : Group) (vx vy vz : String)
    (hen : w.isEnabled = true) (hg : dash.getAccelerometer w.m_index = some g)
    (hp : g.datasets.Perm [⟨"x", vx⟩, ⟨"y", vy⟩, ⟨"z", vz⟩]) :
    (updateData w dash).gaugeValue =
      QReal.qSqrt (QReal.qPow (QReal.toDouble vx / 9.18) (QReal.ofInt 2)
        + QReal.qPow (QReal.toDouble vy / 9.18) (QReal.ofInt 2)
        + QReal.qPow (QReal.toDouble vz / 9.18) (QReal.ofInt 2)) := by
  have h3 : g.datasetCount = 3 := by
    have := hp.length_eq
    simp [Group.datasetCount, this]
  simp [updateData, hen, hg, h3, readAxes_xyz hp, magnitude]

/-- Witness of C1: the datasets in the order z, x, y with readings
`x = 9.18`, `y = 0`, `z = 0`. -/
theorem updateData_gauge_is_magnitude_witness :
    (Accelerometer.fresh 0 : Accelerometer Dbl).isEnabled = true ∧
    (dashboardWith 1 ⟨[⟨"z", "0"⟩, ⟨"x", "9.18"⟩, ⟨"y", "0"⟩]⟩ 2).getAccelerometer
        (Accelerometer.fresh 0 : Accelerometer Dbl).m_index
      = some ⟨[⟨"z", "0"⟩, ⟨"x", "9.18"⟩, ⟨"y", "0"⟩]⟩ ∧
    (updateData (Accelerometer.fresh 0 : Accelerometer Dbl)
        (dashboardWith 1 ⟨[⟨"z", "0"⟩, ⟨"x", "9.18"⟩, ⟨"y", "0"⟩]⟩ 2)).gaugeValue =
      QReal.qSqrt (QReal.qPow (QReal.toDouble "9.18" / 9.18) (QReal.ofInt 2)
        + QReal.qPow (QReal.toDouble "0" / 9.18) (QReal.ofInt 2)
        + QReal.qPow (QReal.toDouble "0" / 9.18) (QReal.ofInt 2)) :=
  ⟨rfl, rfl,
    updateData_gauge_is_magnitude _ _ ⟨[⟨"z", "0"⟩, ⟨"x", "9.18"⟩, ⟨"y", "0"⟩]⟩
      "9.18" "0" "0" rfl rfl (by decide)⟩

/-- C2: when the group for the widget's index is absent, or present with a
dataset count other than three, `updateData` returns the widget as it was:
gauge value, display string and pending repaints are unchanged. -/
theorem updateData_skips_absent_or_malformed {D : Type} [QReal D] (w : Accelerometer D)
    (dash : Dashboard)
    (h : dash.getAccelerometer w.m_index = none ∨
      ∃ g, dash.getAccelerometer w.m_index = some g ∧ g.datasetCount ≠ 3) :
    updateData w dash = w ∧ (updateData w dash).gaugeValue = w.gaugeValue ∧
      (updateData w dash).value = w.value ∧ (updateData w dash).timers = w.timers := by
  have hw : updateData w dash = w := by
    apply updateData_of_not_updates
    rcases h with h | ⟨g, hg, h3⟩
    · simp [updates, h]
    · simp [updates, hg, h3]
  simp [hw]

/-- Witness of C2: a group of four datasets. -/
theorem updateData_skips_absent_or_malformed_witness :
    ((dashboardWith 1 ⟨[⟨"x", "1"⟩, ⟨"y", "2"⟩, ⟨"z", "3"⟩, ⟨"x", "4"⟩]⟩ 2).getAccelerometer
        (Accelerometer.fresh 0 : Accelerometer Dbl).m_index = none ∨
      ∃ g, (dashboardWith 1 ⟨[⟨"x", "1"⟩, ⟨"y", "2"⟩, ⟨"z", "3"⟩, ⟨"x", "4"⟩]⟩
        2).getAccelerometer (Accelerometer.fresh 0 : Accelerometer Dbl).m_index = some g ∧
        g.datasetCount ≠ 3) ∧
    (updateData (Accelerometer.fresh 0 : Accelerometer Dbl)
        (dashboardWith 1 ⟨[⟨"x", "1"⟩, ⟨"y", "2"⟩, ⟨"z", "3"⟩, ⟨"x", "4"⟩]⟩ 2)).timers = [] :=
  ⟨Or.inr ⟨_, rfl, by decide⟩,
    (updateData_skips_absent_or_malformed (Accelerometer.fresh 0 : Accelerometer Dbl)
      (dashboardWith 1 ⟨[⟨"x", "1"⟩, ⟨"y", "2"⟩, ⟨"z", "3"⟩, ⟨"x", "4"⟩]⟩ 2)
      (Or.inr ⟨_, rfl, by decide⟩)).2.2.2⟩

/-- C3: for a group of exactly three datasets with arbitrary tags, each axis
`updateData` uses is the reading of the last dataset, in scan order, whose tag
is exactly that axis, and `0` when no dataset carries the tag; the gauge value
is the magnitude of those three axes. -/
theorem axes_are_last_tagged {D : Type} [QReal D] (w : Accelerometer D) (dash : Dashboard)
    (g : Group) (hen : w.isEnabled = true) (hg : dash.getAccelerometer w.m_index = some g)
    (h3 : g.datasetCount = 3) :
    (readAxes g : D × D × D)
      = (lastTagged "x" g.datasets, lastTagged "y" g.datasets, lastTagged "z" g.datasets) ∧
    (updateData w dash).gaugeValue
      = magnitude (lastTagged "x" g.datasets, lastTagged "y" g.datasets,
          lastTagged "z" g.datasets) := by
  refine ⟨readAxes_lastTagged h3, ?_⟩
  simp [updateData, hen, hg, h3, readAxes_lastTagged h3]

/-- Witness of C3: the datasets `y: 9.18`, `z: 0` and one with another tag;
no dataset is tagged "x" and the x axis is `0`. -/
theorem axes_are_last_tagged_witness :
    (⟨[⟨"y", "9.18"⟩, ⟨"z", "0"⟩, ⟨"other", "5"⟩]⟩ : Group).datasetCount = 3 ∧
    (readAxes ⟨[⟨"y", "9.18"⟩, ⟨"z", "0"⟩, ⟨"other", "5"⟩]⟩ : Dbl × Dbl × Dbl)
      = (QReal.ofInt 0, QReal.toDouble "9.18", QReal.toDouble "0") :=
  ⟨rfl,
    (axes_are_last_tagged (Accelerometer.fresh 0 : Accelerometer Dbl)
      (dashboardWith 1 ⟨[⟨"y", "9.18"⟩, ⟨"z", "0"⟩, ⟨"other", "5"⟩]⟩ 2)
      ⟨[⟨"y", "9.18"⟩, ⟨"z", "0"⟩, ⟨"other", "5"⟩]⟩ rfl rfl rfl).1.trans (by decide)⟩

/-- C4: on a disabled widget `updateData` is a no-op, whatever the dashboard
holds: gauge value, display string and pending repaints are unchanged. -/
theorem updateData_disabled_noop {D : Type} [QReal D] (w : Accelerometer D)
    (dash : Dashboard) (h : w.isEnabled = false) :
    updateData w dash = w ∧ (updateData w dash).gaugeValue = w.gaugeValue ∧
      (updateData w dash).value = w.value ∧ (updateData w dash).timers = w.timers := by
  have hw : updateData w dash = w := by simp [updateData, h]
  simp [hw]

/-- Witness of C4: a disabled widget facing a well-formed group. -/
theorem updateData_disabled_noop_witness :
    ({ (Accelerometer.fresh 0 : Accelerometer Dbl) with isEnabled := false }).isEnabled = false ∧
    (updateData { (Accelerometer.fresh 0 : Accelerometer Dbl) with isEnabled := false }
      (dashboardWith 1 ⟨[⟨"x", "9.18"⟩, ⟨"y", "0"⟩, ⟨"z", "0"⟩]⟩ 2)).value = "" :=
  ⟨rfl,
    (updateData_disabled_noop
      { (Accelerometer.fresh 0 : Accelerometer Dbl) with isEnabled := false }
      (dashboardWith 1 ⟨[⟨"x", "9.18"⟩, ⟨"y", "0"⟩, ⟨"z", "0"⟩]⟩ 2) rfl).2.2.1⟩

end Widgets

namespace Widgets

/-! ## Display string, subscription, repeated updates -/

/-- An update changes neither the enabled flag nor the index, so it does not
change which dashboards get past the guards. -/
theorem updates_updateData {D : Type} [QReal D] (w : Accelerometer D) (d d' : Dashboard) :
    updates (updateData w d) d' = updates w d' := by
  cases h : updates w d with
  | false => rw [updateData_of_not_updates h]
  | true =>
    obtain ⟨g, _, _, _, hw⟩ := updateData_of_updates h
    rw [hw]
    rfl

set_option maxRecDepth 100000 in
/-- On binary64 the readings `(9.18, 0, 0)` at precision 2 display "1.00 G". -/
theorem display_one_g :
    (updateData (Accelerometer.fresh 0 : Accelerometer Dbl)
      (dashboardWith 1 ⟨[⟨"x", "9.18"⟩, ⟨"y", "0"⟩, ⟨"z", "0"⟩]⟩ 2)).value = "1.00 G" := by
  decide

set_option maxRecDepth 100000 in
/-- On binary64 the readings `(9.18, 9.18, 9.18)` at precision 3 display
"1.732 G". -/
theorem display_root_three :
    (updateData (Accelerometer.fresh 0 : Accelerometer Dbl)
      (dashboardWith 1 ⟨[⟨"x", "9.18"⟩, ⟨"y", "9.18"⟩, ⟨"z", "9.18"⟩]⟩ 3)).value
      = "1.732 G" := by
  decide

namespace Dbl

/-- With enough halvings allowed, `n` lies below the next power of two. -/
theorem log2Aux_bound (fuel n : Nat) (h : n ≤ fuel) : n < 2 ^ (log2Aux fuel n + 1) := by
  induction fuel generalizing n with
  | zero =>
    have : n = 0 := by omega
    subst this
    simp [log2Aux]
  | succ f ih =>
    unfold log2Aux
    split
    · omega
    · have h2 : n / 2 ≤ f := by omega
      have := ih (n / 2) h2
      rw [pow_succ]
      omega

/-- A number lies below the power of two after its highest bit. -/
theorem lt_pow_log2 (n : Nat) : n < 2 ^ (log2 n + 1) := log2Aux_bound n n (le_refl n)

/-- The character of a digit is a decimal digit of that value. -/
theorem digitChar_spec (d : Nat) (h : d < 10) :
    (digitChar d).isDigit = true ∧ (digitChar d).toNat - 48 = d := by
  interval_cases d <;> decide

/-- Appending a digit multiplies by ten and adds it. -/
theorem decimalValue_append (l : List Char) (c : Char) :
    decimalValue (l ++ [c]) = 10 * decimalValue l + (c.toNat - 48) := by
  simp [decimalValue, List.foldl_append]

/-- With enough fuel, `decimalDigits` is a non-empty run of digits that
denotes `n`. -/
theorem decimalDigits_spec (fuel n : Nat) (h : n < 10 ^ (fuel + 1)) :
    (∀ c ∈ decimalDigits fuel n, c.isDigit = true) ∧
      decimalValue (decimalDigits fuel n) = n ∧ decimalDigits fuel n ≠ [] := by
  induction fuel generalizing n with
  | zero =>
    have h10 : n < 10 := by simpa using h
    have hm : n % 10 = n := Nat.mod_eq_of_lt h10
    have hs := digitChar_spec n h10
    simp [decimalDigits, hm, decimalValue, hs.1, hs.2]
  | succ f ih =>
    unfold decimalDigits
    split
    · rename_i h10
      have hs := digitChar_spec n h10
      simp [decimalValue, hs.1, hs.2]
    · have hq : n / 10 < 10 ^ (f + 1) := by
        rw [pow_succ] at h
        omega
      obtain ⟨hd, hv, _⟩ := ih (n / 10) hq
      have hs := digitChar_spec (n % 10) (Nat.mod_lt _ (by decide))
      refine ⟨?_, ?_, by simp⟩
      · intro c hc
        rcases List.mem_append.1 hc with hc | hc
        · exact hd c hc
        · simp at hc
          rw [hc]; exact hs.1
      · rw [decimalValue_append, hv, hs.2]
        omega

/-- Leading zeros do not change the number denoted. -/
theorem decimalValue_zeros (k : Nat) (l : List Char) :
    decimalValue (List.replicate k '0' ++ l) = decimalValue l := by
  have hz : ∀ k, List.foldl (fun acc c => 10 * acc + (c.toNat - 48)) 0
      (List.replicate k '0') = 0 := by
    intro k
    induction k with
    | zero => rfl
    | succ k ih => simp [List.replicate_succ, List.foldl_cons]; exact ih
  simp [decimalValue, List.foldl_append, hz]

/-- The text of `fixed n p`: a non-empty run of digits, then, when `p > 0`, a
point and exactly `p` digits; all the digits together denote `n`. -/
theorem fixed_spec (n p : Nat) :
    ∃ ip fp : List Char, fixed n p = ip ++ (if p = 0 then [] else '.' :: fp) ∧
      ip ≠ [] ∧ fp.length = p ∧ (∀ c ∈ ip ++ fp, c.isDigit = true) ∧
      decimalValue (ip ++ fp) = n := by
  have hn : n < 10 ^ (log2 n + 1) :=
    lt_of_lt_of_le (lt_pow_log2 n) (Nat.pow_le_pow_left (by decide) _)
  obtain ⟨hd, hv, hne⟩ := decimalDigits_spec (log2 n) n hn
  generalize hds : decimalDigits (log2 n) n = ds at hd hv hne
  have hlen : 0 < ds.length := List.length_pos.2 hne
  let ds2 := List.replicate (p + 1 - ds.length) '0' ++ ds
  have hlen2 : p + 1 ≤ ds2.length := by
    simp only [ds2, List.length_append, List.length_replicate]
    omega
  have hfix : fixed n p
      = if p = 0 then ds2 else ds2.take (ds2.length - p) ++ '.' :: ds2.drop (ds2.length - p) := by
    simp only [fixed, hds, ds2]
  refine ⟨ds2.take (ds2.length - p), ds2.drop (ds2.length - p), ?_, ?_, ?_, ?_, ?_⟩
  · rw [hfix]
    by_cases hp : p = 0
    · simp [hp]
    · simp [hp]
  · intro hnil
    have := congrArg List.length hnil
    simp at this
    omega
  · simp
    omega
  · rw [List.take_append_drop]
    intro c hc
    rcases List.mem_append.1 hc with hc | hc
    · have := List.eq_of_mem_replicate hc
      rw [this]; decide
    · exact hd c hc
  · rw [List.take_append_drop]
    simp only [ds2]
    rw [decimalValue_zeros, hv]

/-- The integer `number` prints is `m * 2^e * 10^p` rounded half up. -/
theorem round_half_up (m : Nat) (e : Int) (p : Nat) :
    (2 * (if 0 ≤ e then m * 2 ^ e.toNat * 10 ^ p else m * 10 ^ p)
        + (if 0 ≤ e then 1 else 2 ^ (-e).toNat))
      / (2 * (if 0 ≤ e then 1 else 2 ^ (-e).toNat))
      = ⌊(m : ℚ) * 2 ^ e * 10 ^ p + 1 / 2⌋₊ := by
  by_cases he : 0 ≤ e
  · obtain ⟨k, rfl⟩ := Int.eq_ofNat_of_zero_le he
    simp only [he, if_true, Int.toNat_ofNat, zpow_natCast]
    rw [← Nat.floor_div_eq_div (α := ℚ)]
    congr 1
    push_cast
    ring
  · have hneg : e < 0 := not_le.1 he
    obtain ⟨k, hk⟩ : ∃ k : Nat, e = -(k : Int) := ⟨(-e).toNat, by omega⟩
    subst hk
    simp only [he, if_false, neg_neg, Int.toNat_ofNat, zpow_neg, zpow_natCast]
    rw [← Nat.floor_div_eq_div (α := ℚ)]
    congr 1
    push_cast
    field_simp
    ring

/-- The text of a finite value at a non-negative precision. -/
theorem number_fin (s : Bool) (m : Nat) (e : Int) (p : Nat) :
    number (fin s m e) (p : Int)
      = String.mk ((if s then ['-'] else [])
          ++ fixed ⌊(m : ℚ) * 2 ^ e * 10 ^ p + 1 / 2⌋₊ p) := by
  have hp : ¬ ((p : Int) < 0) := by omega
  simp only [number, hp, if_false, Int.toNat_ofNat]
  rw [round_half_up]

/-- A conditional between two values without a minus sign has none. -/
theorem signless_ite (c : Prop) [Decidable c] (a b : Dbl) (ha : signless a = true)
    (hb : signless b = true) : signless (if c then a else b) = true := by
  split <;> assumption

/-- Rounding a non-negative quotient gives no minus sign. -/
theorem signless_round (num den : Nat) : signless (round false num den) = true := by
  unfold round
  simp only []
  exact signless_ite _ _ _ rfl (signless_ite _ _ _ rfl rfl)

/-- As `signless_round`, for a scaled quotient. -/
theorem signless_ofRat (num den : Nat) (sh : Int) :
    signless (ofRat false num den sh) = true := by
  unfold ofRat
  split <;> exact signless_round _ _

/-- A square carries no minus sign. -/
theorem signless_pow (x y : Dbl) : signless (pow x y) = true := by
  unfold pow
  split
  · cases x with
    | nan => rfl
    | inf _ => rfl
    | fin _ m e => exact signless_ofRat _ _ _
  · rfl

/-- A sum of two values without a minus sign has none. -/
theorem signless_add (x y : Dbl) (hx : signless x = true) (hy : signless y = true) :
    signless (add x y) = true := by
  cases x with
  | nan => cases y <;> rfl
  | inf s =>
    cases y with
    | nan => rfl
    | inf t =>
      simp only [signless, Bool.not_eq_true'] at hx hy
      subst hx; subst hy; rfl
    | fin _ _ _ => exact hx
  | fin s m e =>
    cases y with
    | nan => rfl
    | inf t => exact hy
    | fin t n f =>
      simp only [signless, Bool.not_eq_true'] at hx hy
      subst hx; subst hy
      simp only [add, Bool.false_eq_true, if_false]
      refine signless_ite _ _ _ rfl ?_
      have hc : decide ((1 : Int) * (m : Int) * 2 ^ (e - min e f).toNat
          + 1 * (n : Int) * 2 ^ (f - min e f).toNat < 0) = false := by
        have h1 : (0 : Int) ≤ 1 * (m : Int) * 2 ^ (e - min e f).toNat := by positivity
        have h2 : (0 : Int) ≤ 1 * (n : Int) * 2 ^ (f - min e f).toNat := by positivity
        simp only [decide_eq_false_iff_not, not_lt]
        omega
      rw [hc]
      exact signless_ofRat _ _ _

/-- The square root of a value without a minus sign has none. -/
theorem signless_sqrt (x : Dbl) (hx : signless x = true) : signless (sqrt x) = true := by
  cases x with
  | nan => rfl
  | inf s =>
    simp only [signless, Bool.not_eq_true'] at hx
    subst hx; rfl
  | fin s m e =>
    simp only [signless, Bool.not_eq_true'] at hx
    subst hx
    unfold sqrt
    simp only [Bool.false_eq_true, if_false]
    exact signless_ite _ _ _ rfl
      (signless_ite _ _ _ (signless_ofRat _ _ _) (signless_ofRat _ _ _))

end Dbl

/-- The magnitude `updateData` computes carries no minus sign. -/
theorem signless_magnitude (xyz : Dbl × Dbl × Dbl) : Dbl.signless (magnitude xyz) = true :=
  Dbl.signless_sqrt _ (Dbl.signless_add _ _
    (Dbl.signless_add _ _ (Dbl.signless_pow _ _) (Dbl.signless_pow _ _)) (Dbl.signless_pow _ _))

set_option maxRecDepth 100000 in
/-- On binary64 the readings `(9.18, 0, 0)` give the gauge value `1`. -/
theorem gauge_one_g :
    (updateData (Accelerometer.fresh 0 : Accelerometer Dbl)
      (dashboardWith 1 ⟨[⟨"x", "9.18"⟩, ⟨"y", "0"⟩, ⟨"z", "0"⟩]⟩ 2)).gaugeValue
      = Dbl.fin false 4503599627370496 (-52) := by
  decide

set_option exponentiation.threshold 4096 in
set_option maxRecDepth 100000 in
/-- On binary64 the reading `x = 1e200` overflows: the gauge value is
infinite and the display string is "inf G". -/
theorem display_overflow :
    (updateData (Accelerometer.fresh 0 : Accelerometer Dbl)
      (dashboardWith 1 ⟨[⟨"x", "1e200"⟩, ⟨"y", "0"⟩, ⟨"z", "0"⟩]⟩ 2)).gaugeValue
      = Dbl.inf false ∧
    (updateData (Accelerometer.fresh 0 : Accelerometer Dbl)
      (dashboardWith 1 ⟨[⟨"x", "1e200"⟩, ⟨"y", "0"⟩, ⟨"z", "0"⟩]⟩ 2)).value = "inf G" := by
  decide

/-- Counterexample to C5: the readings `("1e200", "0", "0")` at precision 2
are a successful update whose display string is "inf G", which has no digit
after a decimal point. -/
theorem display_string_not_fixed_point :
    updates (Accelerometer.fresh 0 : Accelerometer Dbl)
      (dashboardWith 1 ⟨[⟨"x", "1e200"⟩, ⟨"y", "0"⟩, ⟨"z", "0"⟩]⟩ 2) = true ∧
    (dashboardWith 1 ⟨[⟨"x", "1e200"⟩, ⟨"y", "0"⟩, ⟨"z", "0"⟩]⟩ 2).precision = 2 ∧
    (updateData (Accelerometer.fresh 0 : Accelerometer Dbl)
      (dashboardWith 1 ⟨[⟨"x", "1e200"⟩, ⟨"y", "0"⟩, ⟨"z", "0"⟩]⟩ 2)).gaugeValue
      = Dbl.inf false ∧
    (updateData (Accelerometer.fresh 0 : Accelerometer Dbl)
      (dashboardWith 1 ⟨[⟨"x", "1e200"⟩, ⟨"y", "0"⟩, ⟨"z", "0"⟩]⟩ 2)).value = "inf G" ∧
    (∀ c ∈ "inf G".toList, c ≠ '.' ∧ c.isDigit = false) :=
  ⟨rfl, rfl, display_overflow.1, display_overflow.2, by decide⟩

/-- C5, amended: on every successful update whose magnitude `G` is finite,
at display precision `N`, the display string is `G` written as a fixed-point
decimal, followed by a space and the letter G: a non-empty run of digits,
then, when `N > 0`, a decimal point and exactly `N` digits (no sign, and no
point when `N = 0`), the digits denoting `G * 10^N` rounded to the nearest
integer.  The raw readings `(9.18, 0, 0)` at precision 2 give "1.00 G" and
`(9.18, 9.18, 9.18)` at precision 3 give "1.732 G". -/
theorem display_string_fixed_point (w : Accelerometer Dbl) (dash : Dashboard) (N : Nat)
    (s : Bool) (m : Nat) (e : Int)
    (h : updates w dash = true) (hN : dash.precision = (N : Int))
    (hG : (updateData w dash).gaugeValue = Dbl.fin s m e) :
    s = false ∧
    (∃ ip fp : List Char,
      (updateData w dash).value
        = String.mk (ip ++ (if N = 0 then [] else '.' :: fp)) ++ " G" ∧
      ip ≠ [] ∧ fp.length = N ∧ (∀ c ∈ ip ++ fp, c.isDigit = true) ∧
      Dbl.decimalValue (ip ++ fp) = ⌊(m : ℚ) * 2 ^ e * 10 ^ N + 1 / 2⌋₊) ∧
    (updateData (Accelerometer.fresh 0 : Accelerometer Dbl)
      (dashboardWith 1 ⟨[⟨"x", "9.18"⟩, ⟨"y", "0"⟩, ⟨"z", "0"⟩]⟩ 2)).value = "1.00 G" ∧
    (updateData (Accelerometer.fresh 0 : Accelerometer Dbl)
      (dashboardWith 1 ⟨[⟨"x", "9.18"⟩, ⟨"y", "9.18"⟩, ⟨"z", "9.18"⟩]⟩ 3)).value
      = "1.732 G" := by
  obtain ⟨g, _, _, _, hw⟩ := updateData_of_updates h
  rw [hw] at hG
  have hG2 : magnitude (readAxes g : Dbl × Dbl × Dbl) = Dbl.fin s m e := hG
  have hs : s = false := by
    have := signless_magnitude (readAxes g : Dbl × Dbl × Dbl)
    rw [hG2] at this
    simpa [Dbl.signless] using this
  subst hs
  obtain ⟨ip, fp, hfix, hne, hlen, hdig, hval⟩ :=
    Dbl.fixed_spec ⌊(m : ℚ) * 2 ^ e * 10 ^ N + 1 / 2⌋₊ N
  refine ⟨rfl, ⟨ip, fp, ?_, hne, hlen, hdig, hval⟩, display_one_g, display_root_three⟩
  rw [hw]
  show QReal.number (magnitude (readAxes g : Dbl × Dbl × Dbl)) dash.precision ++ " G" = _
  rw [hG2, hN]
  show Dbl.number (Dbl.fin false m e) (N : Int) ++ " G" = _
  rw [Dbl.number_fin, ← hfix]
  simp

/-- Witness of C5, amended: the readings `(9.18, 0, 0)` at precision 2, where
the gauge value is `1`. -/
theorem display_string_fixed_point_witness :
    updates (Accelerometer.fresh 0 : Accelerometer Dbl)
      (dashboardWith 1 ⟨[⟨"x", "9.18"⟩, ⟨"y", "0"⟩, ⟨"z", "0"⟩]⟩ 2) = true ∧
    (dashboardWith 1 ⟨[⟨"x", "9.18"⟩, ⟨"y", "0"⟩, ⟨"z", "0"⟩]⟩ 2).precision = ((2 : Nat) : Int) ∧
    (updateData (Accelerometer.fresh 0 : Accelerometer Dbl)
      (dashboardWith 1 ⟨[⟨"x", "9.18"⟩, ⟨"y", "0"⟩, ⟨"z", "0"⟩]⟩ 2)).gaugeValue
      = Dbl.fin false 4503599627370496 (-52) ∧
    ∃ ip fp : List Char,
      (updateData (Accelerometer.fresh 0 : Accelerometer Dbl)
        (dashboardWith 1 ⟨[⟨"x", "9.18"⟩, ⟨"y", "0"⟩, ⟨"z", "0"⟩]⟩ 2)).value
        = String.mk (ip ++ (if 2 = 0 then [] else '.' :: fp)) ++ " G" ∧
      ip ≠ [] ∧ fp.length = 2 ∧ (∀ c ∈ ip ++ fp, c.isDigit = true) ∧
      Dbl.decimalValue (ip ++ fp)
        = ⌊((4503599627370496 : Nat) : ℚ) * 2 ^ (-52 : Int) * 10 ^ 2 + 1 / 2⌋₊ :=
  ⟨rfl, rfl, gauge_one_g,
    (display_string_fixed_point (Accelerometer.fresh 0 : Accelerometer Dbl)
      (dashboardWith 1 ⟨[⟨"x", "9.18"⟩, ⟨"y", "0"⟩, ⟨"z", "0"⟩]⟩ 2) 2 false
      4503599627370496 (-52) rfl rfl gauge_one_g).2.1⟩

/-- Counterexample to C6: a widget constructed with index `0` while the
dashboard has no accelerometer is returned enabled; once the dashboard holds a
well-formed group at index `0`, a call of `updateData` on it sets the display
string and schedules a repaint. -/
theorem updateData_after_invalid_index :
    (0 : Int) ≥ emptyDashboard.accelerometerCount ∧
    (Accelerometer.init 0 emptyDashboard ⟨["#f44336"], "#000000"⟩ :
        Option (Accelerometer Dbl)) = some (Accelerometer.fresh 0) ∧
    (Accelerometer.fresh 0 : Accelerometer Dbl).value = "" ∧
    (Accelerometer.fresh 0 : Accelerometer Dbl).timers = [] ∧
    (updateData (Accelerometer.fresh 0 : Accelerometer Dbl)
      (dashboardWith 1 ⟨[⟨"x", "9.18"⟩, ⟨"y", "0"⟩, ⟨"z", "0"⟩]⟩ 2)).value = "1.00 G" ∧
    (updateData (Accelerometer.fresh 0 : Accelerometer Dbl)
      (dashboardWith 1 ⟨[⟨"x", "9.18"⟩, ⟨"y", "0"⟩, ⟨"z", "0"⟩]⟩ 2)).timers = [20] :=
  ⟨by decide, rfl, rfl, rfl, display_one_g, rfl⟩

/-- C6, amended: a widget constructed with an index outside
`[0, accelerometerCount)` is returned with no needle configured and
`updateData` not connected to the dashboard's `updated()` signal, so every
later delivery of that signal, for one dashboard state or a sequence of them,
leaves the widget as it was. -/
theorem invalid_index_never_connected {D : Type} [QReal D] (index : Int)
    (dash : Dashboard) (theme : ThemeManager)
    (h : index < 0 ∨ index ≥ dash.accelerometerCount) :
    ∃ w : Accelerometer D, Accelerometer.init index dash theme = some w ∧
      w.connected = false ∧ w.needle = none ∧
      (∀ later : Dashboard, onDashboardUpdated w later = w) ∧
      (∀ laters : List Dashboard, laters.foldl onDashboardUpdated w = w) := by
  refine ⟨Accelerometer.fresh index, by simp [Accelerometer.init, h], rfl, rfl, ?_, ?_⟩
  · intro later
    simp [onDashboardUpdated, Accelerometer.fresh]
  · intro laters
    induction laters with
    | nil => rfl
    | cons d ds ih =>
      simpa [List.foldl, onDashboardUpdated, Accelerometer.fresh] using ih

/-- Witness of C6, amended: index `5` on a dashboard with one
accelerometer. -/
theorem invalid_index_never_connected_witness :
    ((5 : Int) < 0 ∨
      (5 : Int) ≥ (dashboardWith 1 ⟨[⟨"x", "9.18"⟩, ⟨"y", "0"⟩, ⟨"z", "0"⟩]⟩
        2).accelerometerCount) ∧
    ∃ w : Accelerometer Dbl,
      Accelerometer.init 5 (dashboardWith 1 ⟨[⟨"x", "9.18"⟩, ⟨"y", "0"⟩, ⟨"z", "0"⟩]⟩ 2)
        ⟨["#f44336"], "#000000"⟩ = some w ∧
      w.connected = false ∧ w.needle = none ∧
      (∀ later : Dashboard, onDashboardUpdated w later = w) ∧
      (∀ laters : List Dashboard, laters.foldl onDashboardUpdated w = w) :=
  ⟨Or.inr (by decide),
    invalid_index_never_connected 5
      (dashboardWith 1 ⟨[⟨"x", "9.18"⟩, ⟨"y", "0"⟩, ⟨"z", "0"⟩]⟩ 2)
      ⟨["#f44336"], "#000000"⟩ (Or.inr (by decide))⟩

/-- C7: `updateData` is idempotent on the displayed output: for every prior
state and every dashboard snapshot, two successive calls leave the gauge value
and the display string of one call; and the output of a successful update is
the same for every enabled widget of the same index, whatever it showed
before. -/
theorem updateData_idempotent {D : Type} [QReal D] (w : Accelerometer D) (dash : Dashboard) :
    (updateData (updateData w dash) dash).gaugeValue = (updateData w dash).gaugeValue ∧
    (updateData (updateData w dash) dash).value = (updateData w dash).value ∧
    (updates w dash = true → ∀ w0 : Accelerometer D, w0.isEnabled = true →
      w0.m_index = w.m_index →
      (updateData w0 dash).gaugeValue = (updateData w dash).gaugeValue ∧
      (updateData w0 dash).value = (updateData w dash).value) := by
  cases h : updates w dash with
  | false => simp [updateData_of_not_updates h]
  | true =>
    obtain ⟨g, hg, h3, hen, hw⟩ := updateData_of_updates h
    refine ⟨?_, ?_, ?_⟩
    · rw [hw]; simp [updateData, hg, h3, hen]
    · rw [hw]; simp [updateData, hg, h3, hen]
    · intro _ w0 hen0 hidx
      rw [hw]
      simp [updateData, hg, h3, hen0, hidx]

/-- Witness of C7: a widget that already shows "7.00 G" and one freshly
constructed give the same output on the same snapshot. -/
theorem updateData_idempotent_witness :
    (updateData (updateData showingSeven
      (dashboardWith 1 ⟨[⟨"x", "9.18"⟩, ⟨"y", "0"⟩, ⟨"z", "0"⟩]⟩ 2))
      (dashboardWith 1 ⟨[⟨"x", "9.18"⟩, ⟨"y", "0"⟩, ⟨"z", "0"⟩]⟩ 2)).value
      = (updateData showingSeven
        (dashboardWith 1 ⟨[⟨"x", "9.18"⟩, ⟨"y", "0"⟩, ⟨"z", "0"⟩]⟩ 2)).value ∧
    (updateData (Accelerometer.fresh 0 : Accelerometer Dbl)
        (dashboardWith 1 ⟨[⟨"x", "9.18"⟩, ⟨"y", "0"⟩, ⟨"z", "0"⟩]⟩ 2)).value
      = (updateData showingSeven
        (dashboardWith 1 ⟨[⟨"x", "9.18"⟩, ⟨"y", "0"⟩, ⟨"z", "0"⟩]⟩ 2)).value :=
  ⟨(updateData_idempotent showingSeven
      (dashboardWith 1 ⟨[⟨"x", "9.18"⟩, ⟨"y", "0"⟩, ⟨"z", "0"⟩]⟩ 2)).2.1,
    ((updateData_idempotent showingSeven
      (dashboardWith 1 ⟨[⟨"x", "9.18"⟩, ⟨"y", "0"⟩, ⟨"z", "0"⟩]⟩ 2)).2.2 rfl
      (Accelerometer.fresh 0) rfl rfl).2⟩

end Widgets

namespace Widgets

/-! ## Repaint requests, needle colour, dataset order -/

/-- Pending repaint requests after a sequence of updates. -/
theorem timers_foldl {D : Type} [QReal D] (dashes : List Dashboard) (w : Accelerometer D) :
    (dashes.foldl updateData w).timers
      = w.timers ++ List.replicate (dashes.countP (fun d => updates w d)) 20 := by
  induction dashes generalizing w with
  | nil => simp
  | cons d ds ih =>
    rw [List.foldl_cons, ih, List.countP_cons]
    simp only [updates_updateData]
    cases h : updates w d with
    | false => simp [updateData_of_not_updates h]
    | true =>
      obtain ⟨g, _, _, _, hw⟩ := updateData_of_updates h
      rw [hw]
      simp [List.replicate_succ]

/-- C8: every successful update appends exactly one repaint request of delay
20 and a skipped call appends none; requests are not merged: after any
sequence of calls the pending requests are the earlier ones followed by one
request of delay 20 per successful call, so `n` successful calls leave `n`
requests. -/
theorem repaint_requests {D : Type} [QReal D] (w : Accelerometer D) :
    (∀ dash : Dashboard, updates w dash = true →
      (updateData w dash).timers = w.timers ++ [20]) ∧
    (∀ dash : Dashboard, updates w dash = false →
      (updateData w dash).timers = w.timers) ∧
    (∀ dashes : List Dashboard, (dashes.foldl updateData w).timers
      = w.timers ++ List.replicate (dashes.countP (fun d => updates w d)) 20) ∧
    (∀ dashes : List Dashboard, (∀ d ∈ dashes, updates w d = true) →
      (dashes.foldl updateData w).timers
        = w.timers ++ List.replicate dashes.length 20) := by
  refine ⟨?_, ?_, fun dashes => timers_foldl dashes w, ?_⟩
  · intro dash h
    obtain ⟨g, _, _, _, hw⟩ := updateData_of_updates h
    rw [hw]
  · intro dash h
    rw [updateData_of_not_updates h]
  · intro dashes hall
    rw [timers_foldl, List.countP_eq_length.2]
    simpa using hall

/-- Witness of C8: three calls, the second on a group of two datasets, leave
two requests of delay 20; three successful calls leave three. -/
theorem repaint_requests_witness :
    ([dashboardWith 1 ⟨[⟨"x", "9.18"⟩, ⟨"y", "0"⟩, ⟨"z", "0"⟩]⟩ 2,
        dashboardWith 1 ⟨[⟨"x", "9.18"⟩, ⟨"y", "0"⟩]⟩ 2,
        dashboardWith 1 ⟨[⟨"x", "1"⟩, ⟨"y", "2"⟩, ⟨"z", "3"⟩]⟩ 2].foldl updateData
      (Accelerometer.fresh 0 : Accelerometer Dbl)).timers = [20, 20] ∧
    ([dashboardWith 1 ⟨[⟨"x", "9.18"⟩, ⟨"y", "0"⟩, ⟨"z", "0"⟩]⟩ 2,
        dashboardWith 1 ⟨[⟨"x", "9.18"⟩, ⟨"y", "0"⟩, ⟨"z", "0"⟩]⟩ 2,
        dashboardWith 1 ⟨[⟨"x", "1"⟩, ⟨"y", "2"⟩, ⟨"z", "3"⟩]⟩ 2].foldl updateData
      (Accelerometer.fresh 0 : Accelerometer Dbl)).timers = [20, 20, 20] :=
  ⟨(repaint_requests (Accelerometer.fresh 0 : Accelerometer Dbl)).2.2.1
      [dashboardWith 1 ⟨[⟨"x", "9.18"⟩, ⟨"y", "0"⟩, ⟨"z", "0"⟩]⟩ 2,
        dashboardWith 1 ⟨[⟨"x", "9.18"⟩, ⟨"y", "0"⟩]⟩ 2,
        dashboardWith 1 ⟨[⟨"x", "1"⟩, ⟨"y", "2"⟩, ⟨"z", "3"⟩]⟩ 2],
    (repaint_requests (Accelerometer.fresh 0 : Accelerometer Dbl)).2.2.2
      [dashboardWith 1 ⟨[⟨"x", "9.18"⟩, ⟨"y", "0"⟩, ⟨"z", "0"⟩]⟩ 2,
        dashboardWith 1 ⟨[⟨"x", "9.18"⟩, ⟨"y", "0"⟩, ⟨"z", "0"⟩]⟩ 2,
        dashboardWith 1 ⟨[⟨"x", "1"⟩, ⟨"y", "2"⟩, ⟨"z", "3"⟩]⟩ 2]
      (by intro d hd; simp at hd; rcases hd with rfl | rfl | rfl <;> rfl)⟩

/-- C9, the code at the failing input: with index `2` of three accelerometers
and a theme of one colour the constructor reads position `1 % 2 = 1`, which is
outside the colour list, and the construction faults.  The same holds
whenever the theme has fewer colours than the index, the position read being
the number of colours; the remainder itself never divides by zero when the
list is non-empty and the index non-negative. -/
theorem needle_color_position_out_of_range :
    needleColorIndex ([("#f44336" : String)].length : Int) 2 = some 1 ∧
    colorsAt ["#f44336"] 1 = none ∧
    (Accelerometer.init 2
      { accelerometerCount := 3, getAccelerometer := fun _ => none, precision := 2 }
      ⟨["#f44336"], "#000000"⟩ : Option (Accelerometer Dbl)) = none ∧
    (∀ (colors : List String) (index : Int), 0 < colors.length →
      (colors.length : Int) < index →
      needleColorIndex colors.length index = some (colors.length : Int) ∧
      colorsAt colors colors.length = none) ∧
    (∀ (colors : List String) (index : Int), 0 < colors.length → 0 ≤ index →
      (needleColorIndex colors.length index).isSome = true) := by
  refine ⟨by decide, by decide, rfl, ?_, ?_⟩
  · intro colors index hpos hlt
    have h0 : (0 : Int) ≤ (colors.length : Int) := Int.ofNat_nonneg _
    have hne : index ≠ 0 := by omega
    have hng : ¬ ((colors.length : Int) > index) := by omega
    refine ⟨?_, ?_⟩
    · simp only [needleColorIndex, hng, hne, if_false]
      rw [Int.tmod_eq_of_lt h0 hlt]
    · simp [colorsAt]
  · intro colors index hpos hidx
    unfold needleColorIndex
    split
    · rfl
    · split
      · omega
      · rfl

/-- C10: when the three datasets of a group carry the tags "x", "y" and "z",
one each, the gauge value and the display string `updateData` produces are the
same for every ordering of the datasets within the group. -/
theorem updateData_order_invariant {D : Type} [QReal D] (w : Accelerometer D)
    (dash dash0 : Dashboard) (g g0 : Group) (vx vy vz : String)
    (hg : dash.getAccelerometer w.m_index = some g)
    (hg0 : dash0.getAccelerometer w.m_index = some g0)
    (hprec : dash0.precision = dash.precision)
    (hp : g.datasets.Perm [⟨"x", vx⟩, ⟨"y", vy⟩, ⟨"z", vz⟩])
    (hp0 : g0.datasets.Perm g.datasets) :
    (updateData w dash0).gaugeValue = (updateData w dash).gaugeValue ∧
    (updateData w dash0).value = (updateData w dash).value := by
  have h3 : g.datasetCount = 3 := by
    have := hp.length_eq
    simp [Group.datasetCount, this]
  have h30 : g0.datasetCount = 3 := by
    have := (hp0.trans hp).length_eq
    simp [Group.datasetCount, this]
  cases hen : w.isEnabled with
  | false => simp [updateData, hen]
  | true =>
    simp [updateData, hen, hg, hg0, h3, h30, readAxes_xyz hp, readAxes_xyz (hp0.trans hp),
      hprec]

/-- Witness of C10: the orders x, y, z and z, x, y of one group. -/
theorem updateData_order_invariant_witness :
    (updateData (Accelerometer.fresh 0 : Accelerometer Dbl)
        (dashboardWith 1 ⟨[⟨"z", "3"⟩, ⟨"x", "1"⟩, ⟨"y", "2"⟩]⟩ 2)).value
      = (updateData (Accelerometer.fresh 0 : Accelerometer Dbl)
        (dashboardWith 1 ⟨[⟨"x", "1"⟩, ⟨"y", "2"⟩, ⟨"z", "3"⟩]⟩ 2)).value :=
  (updateData_order_invariant (Accelerometer.fresh 0 : Accelerometer Dbl)
    (dashboardWith 1 ⟨[⟨"x", "1"⟩, ⟨"y", "2"⟩, ⟨"z", "3"⟩]⟩ 2)
    (dashboardWith 1 ⟨[⟨"z", "3"⟩, ⟨"x", "1"⟩, ⟨"y", "2"⟩]⟩ 2)
    ⟨[⟨"x", "1"⟩, ⟨"y", "2"⟩, ⟨"z", "3"⟩]⟩ ⟨[⟨"z", "3"⟩, ⟨"x", "1"⟩, ⟨"y", "2"⟩]⟩
    "1" "2" "3" rfl rfl rfl (List.Perm.refl _) (by decide)).2

end Widgets
